import Mathlib

/-!
Shallow embedding of the Vastram laundry-service backend
(Express + Mongoose), covering the user/membership model, the service
catalog, cart mutation methods, and the order routes (checkout, review,
cancel).  JavaScript numbers are modelled as rationals (`ℚ`), integer
counters as `ℕ`/`ℤ`, timestamps as `ℤ`, and Mongo document ids as `ℕ`.
Fallible operations (Mongoose `save` with validators) return `Except`.
-/

deriving instance DecidableEq for Except

namespace Vastram

/-- JavaScript `Math.round`: round half toward positive infinity. -/
def jsRound (q : ℚ) : ℤ := ⌊q + 1/2⌋

/-- JavaScript `String.prototype.trim` (the `trim()` sanitizer of
express-validator): strip whitespace from both ends. -/
def jsTrim (s : String) : String :=
  String.mk (((s.data.dropWhile Char.isWhitespace).reverse.dropWhile
    Char.isWhitespace).reverse)

/-! ## User model (models/User.cjs) -/

/-- `membershipTier` enum of the user schema. -/
inductive Tier where
  | bronze
  | silver
  | gold
  | platinum
deriving DecidableEq, Repr

/-- The fields of a user document that the membership logic reads or
writes (`models/User.cjs`). -/
structure User where
  id : ℕ
  totalOrders : ℕ
  totalSpent : ℚ
  membershipTier : Tier
  isActive : Bool
deriving DecidableEq, Repr

/-- `userSchema.methods.updateMembershipTier`: recompute the tier from
`totalSpent` with thresholds 50000 / 25000 / 10000. -/
def User.updateMembershipTier (u : User) : User :=
  if u.totalSpent ≥ 50000 then { u with membershipTier := .platinum }
  else if u.totalSpent ≥ 25000 then { u with membershipTier := .gold }
  else if u.totalSpent ≥ 10000 then { u with membershipTier := .silver }
  else { u with membershipTier := .bronze }

/-- The tier implied by `totalSpent` in the words of the specification:
bronze if totalSpent < 10000, silver if < 25000, gold if < 50000, else
platinum.  Stated separately from `User.updateMembershipTier` so the two
can be compared. -/
def tierSpec (spent : ℚ) : Tier :=
  if spent < 10000 then .bronze
  else if spent < 25000 then .silver
  else if spent < 50000 then .gold
  else .platinum

/-- Core of `PUT /api/users/:id/membership` (routes/users.cjs): the admin
supplies a tier and the user document is updated with exactly that tier;
`totalSpent` is neither consulted nor changed and
`updateMembershipTier` is not called. -/
def putMembership (u : User) (t : Tier) : User :=
  { u with membershipTier := t }

/-! ## Service catalog (models/Service.cjs, routes/services.cjs) -/

/-- `category` enum of the service schema. -/
inductive Category where
  | shirts
  | suits
  | traditional
  | casual
  | homeEssentials
deriving DecidableEq, Repr

/-- The string stored in Mongo for each category value; listing results
are sorted by this key ascending. -/
def Category.key : Category → String
  | .shirts => "shirts"
  | .suits => "suits"
  | .traditional => "traditional"
  | .casual => "casual"
  | .homeEssentials => "home-essentials"

/-- The fields of a service document used by the routes under
verification (presentation-only fields such as `careInstructions` are
omitted). -/
structure Service where
  id : ℕ
  name : String
  description : String
  price : ℚ
  category : Category
  isActive : Bool
  isPopular : Bool
  tags : List String
deriving DecidableEq, Repr

/-- `Service.findOne({ _id: id, isActive: true })` — the lookup used by
checkout (routes/orders.cjs) and by `GET /api/services/:id`. -/
def findActiveService (catalog : List Service) (sid : ℕ) : Option Service :=
  catalog.find? (fun s => s.id == sid && s.isActive)

/-- Lookup by `_id` alone — the query Mongoose `populate` issues when an
order's `items.service` references are resolved (no `isActive`
condition). -/
def findServiceById (catalog : List Service) (sid : ℕ) : Option Service :=
  catalog.find? (fun s => s.id == sid)

/-- Query parameters of `GET /api/services` after validation. -/
structure ServicesQuery where
  category : Option Category
  minPrice : Option ℚ
  maxPrice : Option ℚ
  popular : Bool
  search : Option String
  page : ℕ
  limit : ℕ
deriving Repr

/-- Model of the MongoDB `$text` match: the search term occurs as a
token of the name, the description or the tags (the text index is
declared over exactly these three fields). -/
def matchesTextSearch (s : Service) (term : String) : Bool :=
  (s.name.splitOn " ").contains term
    || (s.description.splitOn " ").contains term
    || s.tags.contains term

/-- The filter object built by `GET /api/services`: always
`isActive: true`, plus the optional category / price-range / popular /
text-search conditions. -/
def matchesQuery (q : ServicesQuery) (s : Service) : Bool :=
  s.isActive
    && (match q.category with
        | some c => s.category == c
        | none => true)
    && (match q.minPrice with
        | some m => decide (m ≤ s.price)
        | none => true)
    && (match q.maxPrice with
        | some m => decide (s.price ≤ m)
        | none => true)
    && (!q.popular || s.isPopular)
    && (match q.search with
        | some term => matchesTextSearch s term
        | none => true)

/-- Sort key of the non-search listing branch:
`sort({ category: 1, price: 1 })`. -/
def catalogLe (a b : Service) : Bool :=
  decide (a.category.key < b.category.key)
    || (a.category.key == b.category.key && decide (a.price ≤ b.price))

/-- Sort key of the text-search branch: relevance score (database
internal, not modelled as a distinguishing key) then `price: 1`. -/
def priceLe (a b : Service) : Bool :=
  decide (a.price ≤ b.price)

/-- `GET /api/services`: filter, sort, then paginate with
`skip((page-1)*limit).limit(limit)`. -/
def listServices (catalog : List Service) (q : ServicesQuery) : List Service :=
  let filtered := catalog.filter (matchesQuery q)
  let sorted :=
    match q.search with
    | some _ => filtered.mergeSort priceLe
    | none => filtered.mergeSort catalogLe
  (sorted.drop ((q.page - 1) * q.limit)).take q.limit

/-- One group produced by the `GET /api/services/categories`
aggregation. -/
structure CategoryStat where
  count : ℕ
  minPrice : ℚ
  maxPrice : ℚ
  avgPrice : ℚ
deriving DecidableEq, Repr

/-- The documents feeding the category aggregation: the
`$match: { isActive: true }` stage restricted to one `$group` key. -/
def activeOfCategory (catalog : List Service) (c : Category) : List Service :=
  catalog.filter (fun s => s.isActive && s.category == c)

/-- `GET /api/services/categories`: per category, the count, min, max
and average price over active services; a category with no active
service produces no group. -/
def categoriesAgg (catalog : List Service) (c : Category) : Option CategoryStat :=
  match activeOfCategory catalog c with
  | [] => none
  | hd :: tl =>
    some { count := (hd :: tl).length
           minPrice := tl.foldl (fun m s => min m s.price) hd.price
           maxPrice := tl.foldl (fun m s => max m s.price) hd.price
           avgPrice := ((hd :: tl).map Service.price).sum / (hd :: tl).length }

/-! ## Cart (models/Cart.cjs) -/

/-- One line of `cartSchema.items` (sub-schema `cartItemSchema`). -/
structure CartItem where
  service : ℕ
  quantity : ℤ
  price : ℚ
deriving DecidableEq, Repr

/-- The validators declared on `cartItemSchema`: quantity between 1 and
50, non-negative price. -/
def cartItemValid (it : CartItem) : Bool :=
  decide (1 ≤ it.quantity) && decide (it.quantity ≤ 50) && decide (0 ≤ it.price)

/-- A cart document. -/
structure Cart where
  user : ℕ
  items : List CartItem
  totalItems : ℤ
  totalPrice : ℚ
  lastUpdated : ℤ
deriving DecidableEq, Repr

/-- Mongoose `save()` on a cart: validation runs first (its failure
aborts the save and nothing is persisted), then the schema's
`pre('save')` hook recomputes `totalItems` and `totalPrice` from the
item list with the two `reduce` calls and stamps `lastUpdated`. -/
def Cart.save (c : Cart) (now : ℤ) : Except String Cart :=
  if c.items.all cartItemValid then
    .ok { c with
          totalItems := c.items.foldl (fun t it => t + it.quantity) 0
          totalPrice := c.items.foldl (fun t it => t + it.price * it.quantity) 0
          lastUpdated := now }
  else
    .error "Cart validation failed"

/-- In-place mutation of the first item matching the service id,
incrementing its quantity (`existingItem.quantity += quantity`). -/
def addToFirst (items : List CartItem) (sid : ℕ) (q : ℤ) : List CartItem :=
  match items with
  | [] => []
  | it :: rest =>
    if it.service == sid then { it with quantity := it.quantity + q } :: rest
    else it :: addToFirst rest sid q

/-- In-place mutation of the first item matching the service id,
setting its quantity (`item.quantity = quantity`). -/
def setFirst (items : List CartItem) (sid : ℕ) (q : ℤ) : List CartItem :=
  match items with
  | [] => []
  | it :: rest =>
    if it.service == sid then { it with quantity := q } :: rest
    else it :: setFirst rest sid q

/-- `cartSchema.methods.addItem`: merge into an existing line for the
same service, otherwise push a new line; then save. -/
def Cart.addItem (c : Cart) (sid : ℕ) (quantity : ℤ) (price : ℚ) (now : ℤ) :
    Except String Cart :=
  let items :=
    if (c.items.find? (fun it => it.service == sid)).isSome then
      addToFirst c.items sid quantity
    else
      c.items ++ [{ service := sid, quantity := quantity, price := price }]
  Cart.save { c with items := items } now

/-- `cartSchema.methods.updateItemQuantity`: when a line for the service
exists, a quantity ≤ 0 removes the line and a positive quantity
overwrites it; when none exists the item list is unchanged; then save. -/
def Cart.updateItemQuantity (c : Cart) (sid : ℕ) (quantity : ℤ) (now : ℤ) :
    Except String Cart :=
  let items :=
    if (c.items.find? (fun it => it.service == sid)).isSome then
      if quantity ≤ 0 then
        c.items.filter (fun it => !(it.service == sid))
      else
        setFirst c.items sid quantity
    else
      c.items
  Cart.save { c with items := items } now

/-- `cartSchema.methods.removeItem`: filter the line out, then save. -/
def Cart.removeItem (c : Cart) (sid : ℕ) (now : ℤ) : Except String Cart :=
  Cart.save { c with items := c.items.filter (fun it => !(it.service == sid)) } now

/-- `cartSchema.methods.clearCart`: empty the item list, then save. -/
def Cart.clearCart (c : Cart) (now : ℤ) : Except String Cart :=
  Cart.save { c with items := [] } now

/-! ## Orders (models/Order.cjs, routes/orders.cjs) -/

/-- `status` enum of the order schema. -/
inductive OrderStatus where
  | pending
  | confirmed
  | pickedUp
  | inProgress
  | ready
  | outForDelivery
  | delivered
  | cancelled
deriving DecidableEq, Repr

/-- One snapshotted line of `orderSchema.items`. -/
structure OrderItem where
  service : ℕ
  serviceName : String
  quantity : ℤ
  price : ℚ
  subtotal : ℚ
deriving DecidableEq, Repr

/-- One entry of the `trackingUpdates` history. -/
structure TrackingUpdate where
  status : OrderStatus
  message : String
  timestamp : ℤ
deriving DecidableEq, Repr

/-- The fields of an order document used by the routes under
verification (order number, payment fields and admin notes omitted). -/
structure Order where
  customer : ℕ
  items : List OrderItem
  subtotal : ℚ
  tax : ℤ
  total : ℚ
  pickupAddress : String
  pickupDate : ℤ
  pickupTime : String
  deliveryAddress : String
  specialInstructions : Option String
  status : OrderStatus
  trackingUpdates : List TrackingUpdate
  rating : Option ℤ
  review : Option String
  actualDelivery : Option ℤ
deriving DecidableEq, Repr

/-- `orderSchema.methods.addTrackingUpdate`: push a history entry and
set the order's status to the entry's status. -/
def Order.addTrackingUpdate (o : Order) (st : OrderStatus) (msg : String) (now : ℤ) :
    Order :=
  { o with
    trackingUpdates := o.trackingUpdates ++ [{ status := st, message := msg, timestamp := now }]
    status := st }

/-- One `{service, quantity}` pair of the checkout request body (the
`isMongoId` shape check is absorbed by typing the id as `ℕ`). -/
structure OrderRequestItem where
  service : ℕ
  quantity : ℤ
deriving DecidableEq, Repr

/-- The checkout request body; `pickupDate` carries the result of the
ISO-8601 parse (`none` when the field is not a valid date). -/
structure OrderRequest where
  items : List OrderRequestItem
  pickupAddress : String
  pickupDate : Option ℤ
  pickupTime : String
  deliveryAddress : String
  specialInstructions : Option String
deriving Repr

/-- Address validator of the checkout route:
`trim().isLength({ min: 10, max: 300 })`. -/
def validAddress (s : String) : Bool :=
  decide (10 ≤ (jsTrim s).length) && decide ((jsTrim s).length ≤ 300)

/-- The pickup-time pattern `([0-1]?[0-9]|2[0-3]):[0-5][0-9]` anchored
at both ends. -/
def validTime (s : String) : Bool :=
  match s.toList with
  | [h, c, m1, m2] =>
    c == ':' && h.isDigit
      && decide ('0' ≤ m1) && decide (m1 ≤ '5') && m2.isDigit
  | [h1, h2, c, m1, m2] =>
    c == ':'
      && (((h1 == '0' || h1 == '1') && h2.isDigit)
          || (h1 == '2' && decide ('0' ≤ h2) && decide (h2 ≤ '3')))
      && decide ('0' ≤ m1) && decide (m1 ≤ '5') && m2.isDigit
  | _ => false

/-- The express-validator chain of `POST /api/orders`: at least one
item, integer quantities in [1, 50], addresses of trimmed length
[10, 300], a parseable pickup date, a well-formed pickup time, and
special instructions of at most 500 characters. -/
def validateOrderRequest (r : OrderRequest) : Bool :=
  !r.items.isEmpty
    && r.items.all (fun it => decide (1 ≤ it.quantity) && decide (it.quantity ≤ 50))
    && validAddress r.pickupAddress
    && r.pickupDate.isSome
    && validTime r.pickupTime
    && validAddress r.deliveryAddress
    && (match r.specialInstructions with
        | some si => decide (si.length ≤ 500)
        | none => true)

/-- The item loop of the checkout route: for each requested item look up
the service requiring `isActive: true`, failing fast on the first
missing one; on success return the snapshotted order lines and the
accumulated subtotal. -/
def buildOrderItems (catalog : List Service) :
    List OrderRequestItem → Option (List OrderItem × ℚ)
  | [] => some ([], 0)
  | it :: rest =>
    match findActiveService catalog it.service with
    | none => none
    | some s =>
      match buildOrderItems catalog rest with
      | none => none
      | some (lines, sub) =>
        some ({ service := s.id
                serviceName := s.name
                quantity := it.quantity
                price := s.price
                subtotal := s.price * (it.quantity : ℚ) } :: lines,
              s.price * (it.quantity : ℚ) + sub)

/-- The order document constructed by `new Order({...})` at checkout —
tax is 18% GST rounded, total is subtotal plus tax — together with the
initial pending tracking entry added right after the first save. -/
def checkoutOrder (user : User) (r : OrderRequest) (pd : ℤ) (lines : List OrderItem)
    (sub : ℚ) (now : ℤ) : Order :=
  let tax := jsRound (sub * (18 / 100))
  let total := sub + (tax : ℚ)
  Order.addTrackingUpdate
    { customer := user.id
      items := lines
      subtotal := sub
      tax := tax
      total := total
      pickupAddress := jsTrim r.pickupAddress
      pickupDate := pd
      pickupTime := r.pickupTime
      deliveryAddress := jsTrim r.deliveryAddress
      specialInstructions := r.specialInstructions
      status := .pending
      trackingUpdates := []
      rating := none
      review := none
      actualDelivery := none }
    .pending "Order placed successfully. Waiting for confirmation." now

/-- `POST /api/orders`: validate, reject a pickup date not strictly in
the future, resolve and price the items, persist the order with an
initial pending tracking entry, update the user's counters and tier,
and clear the user's cart.  The result is the HTTP status code together
with the updated order store, user and cart. -/
def handleCreateOrder (catalog : List Service) (orders : List Order) (user : User)
    (cart : Option Cart) (r : OrderRequest) (now : ℤ) :
    ℕ × List Order × User × Option Cart :=
  if !(validateOrderRequest r) then (400, orders, user, cart)
  else
    match r.pickupDate with
    | none => (400, orders, user, cart)
    | some pd =>
      if pd ≤ now then (400, orders, user, cart)
      else
        match buildOrderItems catalog r.items with
        | none => (400, orders, user, cart)
        | some (orderItems, subtotal) =>
          let order := checkoutOrder user r pd orderItems subtotal now
          let user1 :=
            { user with
              totalOrders := user.totalOrders + 1
              totalSpent := user.totalSpent + order.total }
          let user2 := user1.updateMembershipTier
          match cart with
          | none => (201, orders ++ [order], user2, none)
          | some c =>
            match c.clearCart now with
            | .ok c2 => (201, orders ++ [order], user2, some c2)
            | .error _ => (500, orders ++ [order], user2, some c)

/-- `POST /api/orders/:id/review`: rating must validate in [1, 5] and
the review text fit 500 characters; the `findOne` requires the order to
belong to the caller and have status delivered (404 otherwise); an
already-set rating is rejected with 400 (`if (order.rating)` — a stored
rating is 1..5, hence truthy); otherwise rating and review are stored
together. -/
def handleReview (o : Order) (uid : ℕ) (rating : ℤ) (review : Option String) :
    ℕ × Order :=
  if !(decide (1 ≤ rating) && decide (rating ≤ 5)
        && (match review with
            | some rv => decide (rv.length ≤ 500)
            | none => true)) then
    (400, o)
  else if !(o.customer == uid && o.status == OrderStatus.delivered) then
    (404, o)
  else if o.rating.isSome then
    (400, o)
  else
    (200, { o with rating := some rating, review := review })

/-- `DELETE /api/orders/:id`: a non-admin caller can only reach their
own order (404 otherwise); cancellation is allowed only from pending or
confirmed (400 otherwise); on success a cancelled tracking entry is
appended, which also moves the status to cancelled. -/
def handleCancel (o : Order) (uid : ℕ) (isAdmin : Bool) (now : ℤ) : ℕ × Order :=
  if !isAdmin && !(o.customer == uid) then (404, o)
  else if !(o.status == OrderStatus.pending || o.status == OrderStatus.confirmed) then
    (400, o)
  else
    (200, o.addTrackingUpdate .cancelled "Order cancelled by customer request." now)

/-! ## Concrete sample data (used by the closed instance theorems) -/

/-- An active catalog entry, as produced by the seed script. -/
def sampleService : Service :=
  { id := 1, name := "Premium Shirt Laundry",
    description := "Professional cleaning and pressing of dress shirts",
    price := 100, category := .shirts, isActive := true, isPopular := true,
    tags := ["shirt", "laundry"] }

/-- A soft-deleted catalog entry. -/
def inactiveService : Service :=
  { id := 2, name := "Suit Dry Cleaning",
    description := "Expert dry cleaning for suits and blazers",
    price := 50, category := .suits, isActive := false, isPopular := false,
    tags := ["suit"] }

/-- A freshly registered customer. -/
def sampleUser : User :=
  { id := 7, totalOrders := 0, totalSpent := 0, membershipTier := .bronze,
    isActive := true }

/-- A lazily created empty cart. -/
def emptyCart : Cart :=
  { user := 7, items := [], totalItems := 0, totalPrice := 0, lastUpdated := 0 }

/-- The persisted cart after adding two units of service 1 at price 100. -/
def addedCart : Cart :=
  { user := 7, items := [{ service := 1, quantity := 2, price := 100 }],
    totalItems := 2, totalPrice := 200, lastUpdated := 5 }

/-- The persisted cart after merging a second add of three units. -/
def mergedCart : Cart :=
  { user := 7, items := [{ service := 1, quantity := 5, price := 100 }],
    totalItems := 5, totalPrice := 500, lastUpdated := 6 }

/-- The persisted cart after removing the only line. -/
def clearedCart : Cart :=
  { user := 7, items := [], totalItems := 0, totalPrice := 0, lastUpdated := 7 }

/-- A persisted cart holding thirty units of service 1. -/
def cart30 : Cart :=
  { user := 7, items := [{ service := 1, quantity := 30, price := 100 }],
    totalItems := 30, totalPrice := 3000, lastUpdated := 5 }

/-- A well-formed checkout request for two units of service 1. -/
def sampleRequest : OrderRequest :=
  { items := [{ service := 1, quantity := 2 }],
    pickupAddress := "221B Baker Street",
    pickupDate := some 100, pickupTime := "09:30",
    deliveryAddress := "221B Baker Street", specialInstructions := none }

/-- The same request with a pickup date in the past. -/
def pastRequest : OrderRequest :=
  { sampleRequest with pickupDate := some (-5) }

/-- A delivered, not yet reviewed order. -/
def deliveredOrder : Order :=
  { customer := 7,
    items := [{ service := 1, serviceName := "Premium Shirt Laundry",
                quantity := 2, price := 100, subtotal := 200 }],
    subtotal := 200, tax := 36, total := 236,
    pickupAddress := "221B Baker Street", pickupDate := 100, pickupTime := "09:30",
    deliveryAddress := "221B Baker Street", specialInstructions := none,
    status := .delivered, trackingUpdates := [], rating := none, review := none,
    actualDelivery := some 200 }

/-- The same order after a first review. -/
def ratedOrder : Order := { deliveredOrder with rating := some 5 }

/-- An order already picked up. -/
def pickedUpOrder : Order :=
  { deliveredOrder with status := .pickedUp, actualDelivery := none }

/-- A default listing query: no filters, first page, default limit. -/
def sampleQuery : ServicesQuery :=
  { category := none, minPrice := none, maxPrice := none, popular := false,
    search := none, page := 1, limit := 20 }

/-! ## Helper lemmas -/

theorem foldl_quantity_eq_sum (items : List CartItem) (a : ℤ) :
    items.foldl (fun t it => t + it.quantity) a
      = a + (items.map (fun it => it.quantity)).sum := by
  induction items generalizing a with
  | nil => simp
  | cons hd tl ih => simp [List.foldl_cons, ih (a + hd.quantity), add_assoc]

theorem foldl_price_eq_sum (items : List CartItem) (a : ℚ) :
    items.foldl (fun t it => t + it.price * (it.quantity : ℚ)) a
      = a + (items.map (fun it => it.price * (it.quantity : ℚ))).sum := by
  induction items generalizing a with
  | nil => simp
  | cons hd tl ih =>
    simp [List.foldl_cons, ih (a + hd.price * (hd.quantity : ℚ)), add_assoc]

theorem save_ok_spec (c : Cart) (now : ℤ) (c2 : Cart) (h : c.save now = .ok c2) :
    c2.items = c.items ∧ c.items.all cartItemValid = true ∧
    c2.totalItems = c.items.foldl (fun t it => t + it.quantity) 0 ∧
    c2.totalPrice = c.items.foldl (fun t it => t + it.price * (it.quantity : ℚ)) 0 := by
  unfold Cart.save at h
  split at h
  · cases h
    exact ⟨rfl, by assumption, rfl, rfl⟩
  · cases h

theorem save_ok_totals_sum (c : Cart) (now : ℤ) (c2 : Cart) (h : c.save now = .ok c2) :
    c2.totalItems = (c2.items.map (fun it => it.quantity)).sum ∧
    c2.totalPrice = (c2.items.map (fun it => it.price * (it.quantity : ℚ))).sum := by
  obtain ⟨hitems, _, hti, htp⟩ := save_ok_spec c now c2 h
  rw [hti, htp, hitems, foldl_quantity_eq_sum, foldl_price_eq_sum]
  simp

theorem addToFirst_mem (items : List CartItem) (sid : ℕ) (q : ℤ) (it0 : CartItem)
    (h : items.find? (fun it => it.service == sid) = some it0) :
    { it0 with quantity := it0.quantity + q } ∈ addToFirst items sid q := by
  induction items with
  | nil => cases h
  | cons hd tl ih =>
    by_cases hp : (hd.service == sid) = true
    · rw [List.find?_cons_of_pos (p := fun it => it.service == sid) tl hp] at h
      cases h
      simp [addToFirst, hp]
    · rw [List.find?_cons_of_neg (p := fun it => it.service == sid) tl hp] at h
      simp only [addToFirst, if_neg hp, List.mem_cons]
      exact Or.inr (ih h)

/-! ## Claim theorems -/

/-- Claim C4: after every mutating cart operation (`addItem`,
`updateItemQuantity`, `removeItem`, `clearCart`) that persists, the
stored `totalItems` equals the sum of the item quantities and
`totalPrice` equals the sum of price times quantity over the items. -/
theorem cart_totals_invariant (c : Cart) (sid : ℕ) (q : ℤ) (p : ℚ) (now : ℤ) (c2 : Cart)
    (h : c.addItem sid q p now = .ok c2 ∨ c.updateItemQuantity sid q now = .ok c2 ∨
         c.removeItem sid now = .ok c2 ∨ c.clearCart now = .ok c2) :
    c2.totalItems = (c2.items.map (fun it => it.quantity)).sum ∧
    c2.totalPrice = (c2.items.map (fun it => it.price * (it.quantity : ℚ))).sum := by
  rcases h with h | h | h | h
  · exact save_ok_totals_sum _ now c2 h
  · exact save_ok_totals_sum _ now c2 h
  · exact save_ok_totals_sum _ now c2 h
  · exact save_ok_totals_sum _ now c2 h

/-- Claim C10: every persisted cart has all line quantities in [1, 50],
and an `addItem` whose merged quantity for an existing line exceeds 50
fails with a validation error, so no over-limit line is ever
persisted. -/
theorem cart_quantity_bounds :
    (∀ (c : Cart) (now : ℤ) (c2 : Cart), c.save now = .ok c2 →
        ∀ it ∈ c2.items, 1 ≤ it.quantity ∧ it.quantity ≤ 50) ∧
    (∀ (c : Cart) (sid : ℕ) (q : ℤ) (p : ℚ) (now : ℤ) (it0 : CartItem),
        c.items.find? (fun it => it.service == sid) = some it0 →
        50 < it0.quantity + q →
        ∃ e, c.addItem sid q p now = .error e) := by
  constructor
  · intro c now c2 h it hmem
    obtain ⟨hitems, hvalid, -, -⟩ := save_ok_spec c now c2 h
    rw [hitems] at hmem
    have hv := List.all_eq_true.mp hvalid it hmem
    unfold cartItemValid at hv
    simp only [Bool.and_eq_true, decide_eq_true_eq] at hv
    exact ⟨hv.1.1, hv.1.2⟩
  · intro c sid q p now it0 hfind hgt
    refine ⟨"Cart validation failed", ?_⟩
    unfold Cart.addItem
    rw [hfind]
    simp only [Option.isSome_some, if_true]
    unfold Cart.save
    have hmem := addToFirst_mem c.items sid q it0 hfind
    have hall : (addToFirst c.items sid q).all cartItemValid = false := by
      refine Bool.eq_false_iff.mpr ?_
      intro htrue
      have hv := List.all_eq_true.mp htrue _ hmem
      unfold cartItemValid at hv
      simp only [Bool.and_eq_true, decide_eq_true_eq] at hv
      omega
    simp [hall]

/-- Closed instance of `cart_quantity_bounds`: the quantity of the
single line of a persisted cart is within bounds, and merging 30 more
units into a line already holding 30 fails the save. -/
theorem cart_quantity_bounds_witness :
    (1 ≤ (2 : ℤ) ∧ (2 : ℤ) ≤ 50) ∧
    ∃ e, cart30.addItem 1 30 100 6 = .error e := by
  have h := cart_quantity_bounds
  constructor
  · exact h.1 addedCart 5 addedCart
      (by norm_num [Cart.save, addedCart, cartItemValid])
      { service := 1, quantity := 2, price := 100 } (by simp [addedCart])
  · exact h.2 cart30 1 30 100 6 { service := 1, quantity := 30, price := 100 }
      (by simp [cart30]) (by decide)

/-- Closed instance of `cart_totals_invariant`: adding two units of
service 1 to the empty cart persists totals 2 and 200. -/
theorem cart_totals_invariant_witness :
    emptyCart.addItem 1 2 100 5 = .ok addedCart ∧
    addedCart.totalItems = (addedCart.items.map (fun it => it.quantity)).sum ∧
    addedCart.totalPrice
      = (addedCart.items.map (fun it => it.price * (it.quantity : ℚ))).sum := by
  have hop : emptyCart.addItem 1 2 100 5 = .ok addedCart := by
    norm_num [Cart.addItem, Cart.save, emptyCart, addedCart, cartItemValid, addToFirst]
  have hinv := cart_totals_invariant emptyCart 1 2 100 5 addedCart (Or.inl hop)
  exact ⟨hop, hinv⟩

theorem addToFirst_append_of_no_match (l : List CartItem) (x : CartItem) (sid : ℕ)
    (q : ℤ) (hl : ∀ it ∈ l, (it.service == sid) = false)
    (hx : (x.service == sid) = true) :
    addToFirst (l ++ [x]) sid q = l ++ [{ x with quantity := x.quantity + q }] := by
  induction l with
  | nil => simp [addToFirst, hx]
  | cons hd tl ih =>
    have hhd := hl hd (List.mem_cons_self hd tl)
    have ih2 := ih (fun it hmem => hl it (List.mem_cons_of_mem hd hmem))
    simp [addToFirst, hhd, ih2]

theorem filter_eq_nil_of_no_match (l : List CartItem) (sid : ℕ)
    (hl : ∀ it ∈ l, (it.service == sid) = false) :
    l.filter (fun it => it.service == sid) = [] := by
  induction l with
  | nil => rfl
  | cons hd tl ih =>
    rw [List.filter_cons_of_neg (by simp [hl hd (List.mem_cons_self hd tl)])]
    exact ih fun it hmem => hl it (List.mem_cons_of_mem hd hmem)

/-- Claim C7: two `addItem` calls with the same service id on a cart
with no existing line for it produce a single merged line whose quantity
is the sum of the two requested quantities (one more line overall, not
two). -/
theorem addItem_merges (c : Cart) (sid : ℕ) (q1 q2 : ℤ) (p1 p2 : ℚ) (t1 t2 : ℤ)
    (c1 c2 : Cart)
    (h0 : c.items.find? (fun it => it.service == sid) = none)
    (h1 : c.addItem sid q1 p1 t1 = .ok c1)
    (h2 : c1.addItem sid q2 p2 t2 = .ok c2) :
    c2.items.filter (fun it => it.service == sid)
      = [{ service := sid, quantity := q1 + q2, price := p1 }] ∧
    c2.items.length = c.items.length + 1 := by
  have hno : ∀ it ∈ c.items, (it.service == sid) = false :=
    fun it hm => Bool.eq_false_iff.mpr (List.find?_eq_none.mp h0 it hm)
  unfold Cart.addItem at h1
  rw [if_neg (by simp [h0])] at h1
  obtain ⟨hitems1, -, -, -⟩ := save_ok_spec _ t1 c1 h1
  have hfind1 : c1.items.find? (fun it => it.service == sid)
      = some { service := sid, quantity := q1, price := p1 } := by
    rw [hitems1, List.find?_append, h0]
    simp [List.find?]
  unfold Cart.addItem at h2
  rw [if_pos (by simp [hfind1])] at h2
  obtain ⟨hitems2, -, -, -⟩ := save_ok_spec _ t2 c2 h2
  rw [hitems1, addToFirst_append_of_no_match c.items _ sid q2 hno (by simp)] at hitems2
  refine ⟨?_, ?_⟩
  · rw [hitems2, List.filter_append, filter_eq_nil_of_no_match c.items sid hno]
    simp
  · rw [hitems2]
    simp

/-- Closed instance of `addItem_merges`: adding 2 then 3 units of
service 1 to the empty cart yields one line of quantity 5. -/
theorem addItem_merges_witness :
    emptyCart.items.find? (fun it => it.service == 1) = none ∧
    emptyCart.addItem 1 2 100 5 = .ok addedCart ∧
    addedCart.addItem 1 3 100 6 = .ok mergedCart ∧
    mergedCart.items.filter (fun it => it.service == 1)
      = [{ service := 1, quantity := 2 + 3, price := 100 }] ∧
    mergedCart.items.length = emptyCart.items.length + 1 := by
  have h0 : emptyCart.items.find? (fun it => it.service == 1) = none := rfl
  have h1 : emptyCart.addItem 1 2 100 5 = .ok addedCart := by
    norm_num [Cart.addItem, Cart.save, emptyCart, addedCart, cartItemValid, addToFirst]
  have h2 : addedCart.addItem 1 3 100 6 = .ok mergedCart := by
    norm_num [Cart.addItem, Cart.save, addedCart, mergedCart, cartItemValid, addToFirst]
  have h := addItem_merges emptyCart 1 2 3 100 100 5 6 addedCart mergedCart h0 h1 h2
  exact ⟨h0, h1, h2, h.1, h.2⟩

/-- Claim C8: on a cart containing a line for the given service id,
`updateItemQuantity` with a quantity ≤ 0 removes the line entirely, and
no persisted line ever has quantity 0. -/
theorem update_quantity_nonpos_removes (c : Cart) (sid : ℕ) (q : ℤ) (now : ℤ)
    (c2 : Cart) (hq : q ≤ 0)
    (hmem : (c.items.find? (fun it => it.service == sid)).isSome = true)
    (h : c.updateItemQuantity sid q now = .ok c2) :
    c2.items.find? (fun it => it.service == sid) = none ∧
    ∀ it ∈ c2.items, it.quantity ≠ 0 := by
  unfold Cart.updateItemQuantity at h
  rw [if_pos hmem, if_pos hq] at h
  obtain ⟨hitems, hvalid, -, -⟩ := save_ok_spec _ now c2 h
  constructor
  · rw [hitems, List.find?_eq_none]
    intro x hx
    have hx2 : x ∈ c.items.filter (fun it => !(it.service == sid)) := hx
    have hneg := (List.mem_filter.mp hx2).2
    simp at hneg ⊢
    exact hneg
  · intro it hmemit
    rw [hitems] at hmemit
    have hv := List.all_eq_true.mp hvalid it hmemit
    unfold cartItemValid at hv
    simp only [Bool.and_eq_true, decide_eq_true_eq] at hv
    omega

/-- Closed instance of `update_quantity_nonpos_removes`: setting the
quantity of the only line to 0 leaves a cart with no line for that
service. -/
theorem update_quantity_nonpos_removes_witness :
    (0 : ℤ) ≤ 0 ∧
    (addedCart.items.find? (fun it => it.service == 1)).isSome = true ∧
    addedCart.updateItemQuantity 1 0 7 = .ok clearedCart ∧
    clearedCart.items.find? (fun it => it.service == 1) = none ∧
    ∀ it ∈ clearedCart.items, it.quantity ≠ 0 := by
  have hmem : (addedCart.items.find? (fun it => it.service == 1)).isSome = true := by
    simp [addedCart]
  have hop : addedCart.updateItemQuantity 1 0 7 = .ok clearedCart := by
    norm_num [Cart.updateItemQuantity, Cart.save, addedCart, clearedCart, cartItemValid]
  have h := update_quantity_nonpos_removes addedCart 1 0 7 clearedCart le_rfl hmem hop
  exact ⟨le_rfl, hmem, hop, h.1, h.2⟩

theorem updateMembershipTier_spec (u : User) :
    (User.updateMembershipTier u).membershipTier = tierSpec u.totalSpent ∧
    (User.updateMembershipTier u).totalSpent = u.totalSpent := by
  constructor
  · unfold User.updateMembershipTier tierSpec
    split_ifs <;> first | rfl | (exfalso; linarith)
  · unfold User.updateMembershipTier
    split_ifs <;> rfl

theorem handleCreateOrder_user_shape (catalog : List Service) (orders : List Order)
    (user : User) (cart : Option Cart) (r : OrderRequest) (now : ℤ) :
    (handleCreateOrder catalog orders user cart r now).1 = 400 ∨
    ∃ u1, (handleCreateOrder catalog orders user cart r now).2.2.1
      = User.updateMembershipTier u1 := by
  simp only [handleCreateOrder]
  split
  · exact Or.inl rfl
  · split
    · exact Or.inl rfl
    · split
      · exact Or.inl rfl
      · split
        · exact Or.inl rfl
        · split
          · exact Or.inr ⟨_, rfl⟩
          · split
            · exact Or.inr ⟨_, rfl⟩
            · exact Or.inr ⟨_, rfl⟩

/-- Claim C3 (counterexample): the admin membership endpoint
`PUT /api/users/:id/membership` writes the requested tier directly
without recomputing from `totalSpent`, so after that mutation
`membershipTier` need not match the tier implied by `totalSpent`: a
fresh user with `totalSpent = 0` set to platinum keeps `totalSpent = 0`,
whose implied tier is bronze. -/
theorem membership_put_breaks_invariant :
    ¬ ((putMembership sampleUser Tier.platinum).membershipTier
        = tierSpec (putMembership sampleUser Tier.platinum).totalSpent) := by
  norm_num [putMembership, sampleUser, tierSpec]
  exact fun h => Tier.noConfusion h

/-- Claim C3 (amended): `membershipTier` equals the tier implied by
`totalSpent` after every mutation that recomputes it through
`updateMembershipTier` — in particular after every successful checkout —
while the admin membership endpoint sets the tier directly and is exempt
from the correspondence. -/
theorem membership_tier_invariant :
    (∀ u : User, (User.updateMembershipTier u).membershipTier = tierSpec u.totalSpent ∧
        (User.updateMembershipTier u).totalSpent = u.totalSpent) ∧
    (∀ (catalog : List Service) (orders : List Order) (user : User)
        (cart : Option Cart) (r : OrderRequest) (now : ℤ),
        (handleCreateOrder catalog orders user cart r now).1 = 201 →
        (handleCreateOrder catalog orders user cart r now).2.2.1.membershipTier
          = tierSpec (handleCreateOrder catalog orders user cart r now).2.2.1.totalSpent) := by
  constructor
  · exact updateMembershipTier_spec
  · intro catalog orders user cart r now h201
    rcases handleCreateOrder_user_shape catalog orders user cart r now with h | ⟨u1, hu⟩
    · exact absurd (h.symm.trans h201) (by decide)
    · rw [hu, (updateMembershipTier_spec u1).2]
      exact (updateMembershipTier_spec u1).1

/-- Closed instance of `membership_tier_invariant`: the checkout of the
sample request succeeds with code 201 and the resulting user's tier
matches their new spend. -/
theorem membership_tier_invariant_witness :
    (handleCreateOrder [sampleService] [] sampleUser none sampleRequest 0).2.2.1.membershipTier
      = tierSpec (handleCreateOrder [sampleService] [] sampleUser none sampleRequest 0).2.2.1.totalSpent :=
  membership_tier_invariant.2 [sampleService] [] sampleUser none sampleRequest 0 (by decide)

/-- Claim C5: a review is accepted (HTTP 200) only when the order is
delivered and carries no rating yet — in which case the rating is
stored — and once a rating is stored every further review attempt fails
(400, or 404 when the delivered-order lookup fails) and the stored
rating is never overwritten. -/
theorem review_only_once (o : Order) (uid : ℕ) (rating : ℤ) (review : Option String) :
    (∀ o2, handleReview o uid rating review = (200, o2) →
        o.status = .delivered ∧ o.rating = none ∧ o2.rating = some rating) ∧
    (∀ x, o.rating = some x →
        ((handleReview o uid rating review).1 = 400 ∨
         (handleReview o uid rating review).1 = 404) ∧
        (handleReview o uid rating review).2.rating = some x) := by
  constructor
  · intro o2 h
    unfold handleReview at h
    split at h
    · simp at h
    · split at h
      · simp at h
      · split at h
        · simp at h
        · rename_i hvalid hfound hnorate
          simp at hfound
          have h2 := (Prod.mk.injEq _ _ _ _).mp h
          refine ⟨hfound.2, ?_, ?_⟩
          · cases hr : o.rating with
            | none => rfl
            | some x => rw [hr] at hnorate; simp at hnorate
          · rw [← h2.2]
  · intro x hx
    unfold handleReview
    split
    · exact ⟨Or.inl rfl, hx⟩
    · split
      · exact ⟨Or.inr rfl, hx⟩
      · split
        · exact ⟨Or.inl rfl, hx⟩
        · rename_i hvalid hfound hnorate
          rw [hx] at hnorate
          simp at hnorate

/-- Closed instance of `review_only_once`: a second review attempt on an
already-rated order is rejected and the stored rating of 5 survives. -/
theorem review_only_once_witness :
    ratedOrder.rating = some 5 ∧
    ((handleReview ratedOrder 7 4 none).1 = 400 ∨
     (handleReview ratedOrder 7 4 none).1 = 404) ∧
    (handleReview ratedOrder 7 4 none).2.rating = some 5 := by
  have h := (review_only_once ratedOrder 7 4 none).2 5 rfl
  exact ⟨rfl, h.1, h.2⟩

/-- Claim C6: customer-initiated cancel succeeds only when the order is
pending or confirmed (then the status becomes cancelled); in any other
status the request fails (400, or 404 when the lookup fails) and the
order is unchanged. -/
theorem cancel_only_pending_confirmed (o : Order) (uid : ℕ) (isAdmin : Bool) (now : ℤ) :
    ((handleCancel o uid isAdmin now).1 = 200 →
        (o.status = .pending ∨ o.status = .confirmed) ∧
        (handleCancel o uid isAdmin now).2.status = .cancelled) ∧
    (o.status ≠ .pending → o.status ≠ .confirmed →
        (handleCancel o uid isAdmin now).1 ≠ 200 ∧
        (handleCancel o uid isAdmin now).2 = o) := by
  unfold handleCancel
  split
  · constructor
    · intro h200; simp at h200
    · intro h1 h2; exact ⟨by simp, rfl⟩
  · split
    · constructor
      · intro h200; simp at h200
      · intro h1 h2; exact ⟨by simp, rfl⟩
    · rename_i hacc hst
      simp at hst
      constructor
      · intro h200
        exact ⟨or_iff_not_imp_left.mpr hst, rfl⟩
      · intro h1 h2
        exact absurd (hst h1) h2

/-- Closed instance of `cancel_only_pending_confirmed`: cancelling a
picked-up order is rejected and leaves the order unchanged. -/
theorem cancel_only_pending_confirmed_witness :
    pickedUpOrder.status ≠ .pending ∧ pickedUpOrder.status ≠ .confirmed ∧
    (handleCancel pickedUpOrder 7 false 0).1 ≠ 200 ∧
    (handleCancel pickedUpOrder 7 false 0).2 = pickedUpOrder := by
  have h := (cancel_only_pending_confirmed pickedUpOrder 7 false 0).2
    (by decide) (by decide)
  exact ⟨by decide, by decide, h.1, h.2⟩

theorem buildOrderItems_none_of_missing (catalog : List Service)
    (items : List OrderRequestItem) (it : OrderRequestItem) (hmem : it ∈ items)
    (h : findActiveService catalog it.service = none) :
    buildOrderItems catalog items = none := by
  induction items with
  | nil => cases hmem
  | cons hd tl ih =>
    rcases List.mem_cons.mp hmem with heq | hmem2
    · subst heq
      simp only [buildOrderItems, h]
    · simp only [buildOrderItems]
      cases hfind : findActiveService catalog hd.service with
      | none => rfl
      | some s => rw [ih hmem2]

/-- Claim C2: a checkout request that fails validation, has a pickup
date not strictly in the future, or references an unknown or inactive
(`isActive = false`) service id is rejected with 400 and the order
store is unchanged — no partial order is persisted. -/
theorem invalid_checkout_rejected (catalog : List Service) (orders : List Order)
    (user : User) (cart : Option Cart) (r : OrderRequest) (now : ℤ)
    (h : validateOrderRequest r = false
        ∨ (∃ pd, r.pickupDate = some pd ∧ pd ≤ now)
        ∨ (∃ it ∈ r.items, findActiveService catalog it.service = none)) :
    (handleCreateOrder catalog orders user cart r now).1 = 400 ∧
    (handleCreateOrder catalog orders user cart r now).2.1 = orders := by
  unfold handleCreateOrder
  cases hv : validateOrderRequest r with
  | false => simp [hv]
  | true =>
    simp only [hv, Bool.not_true, Bool.false_eq_true, if_false]
    rcases h with h | ⟨pd, hpd, hle⟩ | ⟨it, hmem, hnone⟩
    · exact absurd hv (by rw [h]; exact Bool.false_ne_true)
    · rw [hpd]
      simp [hle]
    · cases hpdo : r.pickupDate with
      | none => simp
      | some pd =>
        by_cases hle : pd ≤ now
        · simp [hle]
        · rw [buildOrderItems_none_of_missing catalog r.items it hmem hnone]
          simp [hle]

/-- Closed instance of `invalid_checkout_rejected`: the request with a
past pickup date is rejected with 400 and the order store stays
empty. -/
theorem invalid_checkout_rejected_witness :
    (∃ pd, pastRequest.pickupDate = some pd ∧ pd ≤ (0 : ℤ)) ∧
    (handleCreateOrder [sampleService] [] sampleUser none pastRequest 0).1 = 400 ∧
    (handleCreateOrder [sampleService] [] sampleUser none pastRequest 0).2.1 = [] := by
  have h := invalid_checkout_rejected [sampleService] [] sampleUser none pastRequest 0
    (Or.inr (Or.inl ⟨-5, rfl, by norm_num⟩))
  exact ⟨⟨-5, rfl, by norm_num⟩, h.1, h.2⟩

theorem buildOrderItems_spec (catalog : List Service) (items : List OrderRequestItem)
    (lines : List OrderItem) (sub : ℚ)
    (h : buildOrderItems catalog items = some (lines, sub)) :
    List.Forall₂ (fun (req : OrderRequestItem) (line : OrderItem) =>
        ∃ s, findActiveService catalog req.service = some s ∧
          line.quantity = req.quantity ∧ line.price = s.price ∧
          line.subtotal = s.price * (req.quantity : ℚ)) items lines ∧
    sub = (lines.map OrderItem.subtotal).sum := by
  induction items generalizing lines sub with
  | nil =>
    simp only [buildOrderItems, Option.some.injEq, Prod.mk.injEq] at h
    obtain ⟨h1, h2⟩ := h
    subst h1
    subst h2
    simp
  | cons hd tl ih =>
    simp only [buildOrderItems] at h
    cases hfind : findActiveService catalog hd.service with
    | none => rw [hfind] at h; cases h
    | some s =>
      rw [hfind] at h
      cases hrest : buildOrderItems catalog tl with
      | none => rw [hrest] at h; cases h
      | some pr =>
        obtain ⟨ls, sb⟩ := pr
        rw [hrest] at h
        simp only [Option.some.injEq, Prod.mk.injEq] at h
        obtain ⟨h1, h2⟩ := h
        subst h1
        subst h2
        obtain ⟨hf, hs⟩ := ih ls sb hrest
        constructor
        · exact List.Forall₂.cons ⟨s, hfind, rfl, rfl, rfl⟩ hf
        · simp [hs]

theorem handleCreateOrder_cases (catalog : List Service) (orders : List Order)
    (user : User) (cart : Option Cart) (r : OrderRequest) (now : ℤ) :
    ((handleCreateOrder catalog orders user cart r now).1 = 400 ∧
     (handleCreateOrder catalog orders user cart r now).2.1 = orders) ∨
    (∃ pd lines sub,
      r.pickupDate = some pd ∧
      buildOrderItems catalog r.items = some (lines, sub) ∧
      (handleCreateOrder catalog orders user cart r now).2.1
        = orders ++ [checkoutOrder user r pd lines sub now]) := by
  simp only [handleCreateOrder]
  split
  · exact Or.inl ⟨rfl, rfl⟩
  · split
    · exact Or.inl ⟨rfl, rfl⟩
    · rename_i pd hpd
      split
      · exact Or.inl ⟨rfl, rfl⟩
      · split
        · exact Or.inl ⟨rfl, rfl⟩
        · rename_i lines sub hbuild
          refine Or.inr ⟨pd, lines, sub, hpd, hbuild, ?_⟩
          split
          · rfl
          · split
            · rfl
            · rfl

/-- Claim C1: every successful checkout (201) appends exactly one new
order; each of its lines snapshots the active service's unit price with
line subtotal = price × quantity; the order subtotal is the sum of the
line subtotals; tax = round(subtotal × 0.18); total = subtotal + tax. -/
theorem checkout_pricing (catalog : List Service) (orders : List Order) (user : User)
    (cart : Option Cart) (r : OrderRequest) (now : ℤ)
    (h201 : (handleCreateOrder catalog orders user cart r now).1 = 201) :
    ∃ o, (handleCreateOrder catalog orders user cart r now).2.1 = orders ++ [o] ∧
      List.Forall₂ (fun (req : OrderRequestItem) (line : OrderItem) =>
        ∃ s, findActiveService catalog req.service = some s ∧
          line.quantity = req.quantity ∧ line.price = s.price ∧
          line.subtotal = s.price * (req.quantity : ℚ)) r.items o.items ∧
      o.subtotal = (o.items.map OrderItem.subtotal).sum ∧
      o.tax = jsRound (o.subtotal * (18 / 100)) ∧
      o.total = o.subtotal + (o.tax : ℚ) := by
  rcases handleCreateOrder_cases catalog orders user cart r now with
    ⟨h400, -⟩ | ⟨pd, lines, sub, hpd, hbuild, hres⟩
  · exact absurd (h400.symm.trans h201) (by decide)
  · obtain ⟨hf, hs⟩ := buildOrderItems_spec catalog r.items lines sub hbuild
    refine ⟨checkoutOrder user r pd lines sub now, hres, hf, ?_, rfl, rfl⟩
    exact hs

/-- Closed instance of `checkout_pricing` at the sample catalog and
request: the checkout succeeds with 201 and the appended order carries
the claimed pricing breakdown. -/
theorem checkout_pricing_witness :
    ∃ o, (handleCreateOrder [sampleService] [] sampleUser none sampleRequest 0).2.1
        = [] ++ [o] ∧
      List.Forall₂ (fun (req : OrderRequestItem) (line : OrderItem) =>
        ∃ s, findActiveService [sampleService] req.service = some s ∧
          line.quantity = req.quantity ∧ line.price = s.price ∧
          line.subtotal = s.price * (req.quantity : ℚ)) sampleRequest.items o.items ∧
      o.subtotal = (o.items.map OrderItem.subtotal).sum ∧
      o.tax = jsRound (o.subtotal * (18 / 100)) ∧
      o.total = o.subtotal + (o.tax : ℚ) :=
  checkout_pricing [sampleService] [] sampleUser none sampleRequest 0 (by decide)

theorem matchesQuery_inactive (q : ServicesQuery) (s : Service)
    (h : s.isActive = false) : matchesQuery q s = false := by
  unfold matchesQuery
  rw [h]
  simp

theorem filter_middle_of_neg (l1 l2 : List Service) (s : Service) (p : Service → Bool)
    (hp : p s = false) :
    (l1 ++ s :: l2).filter p = (l1 ++ l2).filter p := by
  rw [List.filter_append, List.filter_append, List.filter_cons_of_neg (by simp [hp])]

theorem find?_id_exists (l1 l2 : List Service) (s : Service) :
    ∃ t, findServiceById (l1 ++ s :: l2) s.id = some t ∧ t.id = s.id := by
  induction l1 with
  | nil =>
    refine ⟨s, ?_, rfl⟩
    unfold findServiceById
    rw [List.nil_append, List.find?_cons_of_pos (p := fun t : Service => t.id == s.id) _ (by simp)]
  | cons hd tl ih =>
    by_cases hp : (hd.id == s.id) = true
    · refine ⟨hd, ?_, by simpa using hp⟩
      unfold findServiceById
      rw [List.cons_append, List.find?_cons_of_pos (p := fun t : Service => t.id == s.id) _ hp]
    · obtain ⟨t, ht, htid⟩ := ih
      refine ⟨t, ?_, htid⟩
      unfold findServiceById at ht ⊢
      rw [List.cons_append, List.find?_cons_of_neg (p := fun t : Service => t.id == s.id) _ hp]
      exact ht

/-- Claim C9: a soft-deleted (`isActive = false`) catalog entry appears
in no public listing — removing it changes neither the service listing
nor the category aggregation — yet the id lookup used to populate
historical orders still finds an entry with its id. -/
theorem inactive_service_hidden (l1 l2 : List Service) (s : Service)
    (q : ServicesQuery) (c : Category) (h : s.isActive = false) :
    listServices (l1 ++ s :: l2) q = listServices (l1 ++ l2) q ∧
    categoriesAgg (l1 ++ s :: l2) c = categoriesAgg (l1 ++ l2) c ∧
    ∃ t, findServiceById (l1 ++ s :: l2) s.id = some t ∧ t.id = s.id := by
  refine ⟨?_, ?_, find?_id_exists l1 l2 s⟩
  · unfold listServices
    rw [filter_middle_of_neg l1 l2 s _ (matchesQuery_inactive q s h)]
  · unfold categoriesAgg activeOfCategory
    rw [filter_middle_of_neg l1 l2 s _ (by simp [h])]

/-- Closed instance of `inactive_service_hidden`: the deactivated suit
service is absent from the listing and the category aggregation but is
still found by id. -/
theorem inactive_service_hidden_witness :
    inactiveService.isActive = false ∧
    listServices [sampleService, inactiveService] sampleQuery
      = listServices [sampleService] sampleQuery ∧
    categoriesAgg [sampleService, inactiveService] Category.suits
      = categoriesAgg [sampleService] Category.suits ∧
    ∃ t, findServiceById [sampleService, inactiveService] inactiveService.id = some t ∧
      t.id = inactiveService.id := by
  have h := inactive_service_hidden [sampleService] [] inactiveService sampleQuery
    Category.suits rfl
  exact ⟨rfl, h.1, h.2.1, h.2.2⟩

end Vastram
